import Mathlib

/-!
Verification development for the pyaaf2 MXF reader and typed property codec
(src/aaf2/types.py, src/aaf2/mxf.py, src/aaf2/mobs.py).  Python functions are
shallowly embedded as executable Lean definitions; machine integers are Nat/Int
with explicit modular reductions, failures are Except values.
-/

/-- Dictionary lookup with Python dict semantics: later insertions override
earlier ones for the same key. -/
def dictGet {κ α : Type} [DecidableEq κ] (entries : List (κ × α)) (key : κ) : Option α :=
  entries.foldl (fun acc e => if e.1 = key then some e.2 else acc) none

/-- Modelled from the spec: utils.int_from_bytes is not under src; the spec
says long-form BER length bytes are read as a big-endian integer. -/
def int_from_bytes (data : List Nat) : Nat :=
  data.foldl (fun acc b => acc * 256 + b) 0

/-- Modelled from the spec: utils.read_s32be is not under src; the spec says
partition and tag payload integer fields are big-endian, here signed 32-bit. -/
def read_s32be (data : List Nat) : Int :=
  let u := int_from_bytes (data.take 4)
  if 2 ^ 31 ≤ u then (u : Int) - 2 ^ 32 else (u : Int)

/-- Little-endian byte list of a natural number, fixed width. -/
def toLEBytes (size : Nat) (n : Nat) : List Nat :=
  (List.range size).map (fun i => n / 256 ^ i % 256)

/-- Natural number from a little-endian byte list. -/
def fromLEBytes (data : List Nat) : Nat :=
  data.foldr (fun b acc => acc * 256 + b) 0

/-- TypeDefInt.pack_format accepts only sizes 1, 2, 4, 8 (types.py). -/
def intPackValid (size : Nat) : Prop :=
  size = 1 ∨ size = 2 ∨ size = 4 ∨ size = 8

instance (size : Nat) : Decidable (intPackValid size) := by
  unfold intPackValid; infer_instance

/-- Range accepted by struct.pack for the given width and signedness. -/
def intRangeOK (size : Nat) (signed : Bool) (v : Int) : Prop :=
  if signed then -(2 ^ (8 * size - 1)) ≤ v ∧ v < 2 ^ (8 * size - 1)
  else 0 ≤ v ∧ v < 2 ^ (8 * size)

instance (size : Nat) (signed : Bool) (v : Int) : Decidable (intRangeOK size signed v) := by
  unfold intRangeOK; split <;> infer_instance

/-- TypeDefInt.encode (types.py): pack the value little-endian with the
declared width; pack_format fails on an unknown size, struct.pack fails on an
out-of-range value. -/
def intEncode (size : Nat) (signed : Bool) (v : Int) : Except String (List Nat) :=
  if ¬ intPackValid size then Except.error "AAFPropertyError: unknown integer size"
  else if ¬ intRangeOK size signed v then Except.error "struct.error: value out of range"
  else Except.ok (toLEBytes size ((v % (2 ^ (8 * size) : Int)).toNat))

/-- TypeDefInt.decode (types.py): assert the byte length equals the declared
size, then unpack little-endian, two of every complement for signed types. -/
def intDecode (size : Nat) (signed : Bool) (data : List Nat) : Except String Int :=
  if data.length ≠ size then Except.error "AssertionError: len mismatch"
  else if ¬ intPackValid size then Except.error "AAFPropertyError: unknown integer size"
  else
    let u := fromLEBytes data
    if signed = true ∧ 2 ^ (8 * size - 1) ≤ u then Except.ok ((u : Int) - 2 ^ (8 * size))
    else Except.ok (u : Int)

/-- AUID of the boolean special case of TypeDefEnum,
UUID 01040100-0000-0000-060e-2b3401040101 as its 16 bytes (types.py). -/
def booleanAuid : List Nat :=
  [0x01, 0x04, 0x01, 0x00, 0x00, 0x00, 0x00, 0x00,
   0x06, 0x0e, 0x2b, 0x34, 0x01, 0x04, 0x01, 0x01]

/-- An enum type definition: its AUID (16 bytes), the integer element typedef
it decodes through, and the code to label mapping (types.py TypeDefEnum). -/
structure TypeDefEnumModel where
  auid : List Nat
  elementSize : Nat
  elementSigned : Bool
  elements : List (Int × String)
deriving DecidableEq

/-- Values produced by the enum codec: Python returns a bool for the boolean
special case and a label string otherwise. -/
inductive AAFValue where
  | bool (b : Bool)
  | label (s : String)
deriving DecidableEq

/-- TypeDefEnum.decode (types.py): the boolean AUID compares the raw bytes to
b x01 before consulting any mapping; otherwise the element typedef decodes an
integer code which is looked up in the elements dict (KeyError when absent). -/
def enumDecode (td : TypeDefEnumModel) (data : List Nat) : Except String AAFValue :=
  if td.auid = booleanAuid then Except.ok (AAFValue.bool (decide (data = [1])))
  else
    match intDecode td.elementSize td.elementSigned data with
    | Except.error e => Except.error e
    | Except.ok index =>
      match dictGet td.elements index with
      | some name => Except.ok (AAFValue.label name)
      | none => Except.error "KeyError"

/-- Loop body of TypeDefFixedArray.encode (types.py): enumerate the input,
raise AAFPropertyError when the index reaches the declared element count,
otherwise append the element encoding.  Returns the final value of the loop
variable i (none when the loop never ran, mirroring the undefined name). -/
def fixedArrayLoop (enc : α → Except String (List Nat)) (elementCount : Nat) :
    List α → Nat → List Nat → Except String (Option Nat × List Nat)
  | [], idx, acc => Except.ok (if idx = 0 then none else some (idx - 1), acc)
  | item :: rest, idx, acc =>
    if elementCount ≤ idx then
      Except.error "AAFPropertyError: too many elements for fixed array"
    else
      match enc item with
      | Except.error e => Except.error e
      | Except.ok b => fixedArrayLoop enc elementCount rest (idx + 1) (acc ++ b)

/-- TypeDefFixedArray.encode (types.py): encode each element, rejecting more
than element_count of them, then pad with (element_count - i) * byte_size zero
bytes whenever i < element_count, where i is the last enumerate index.  An
empty input leaves i unbound, which raises NameError in the padding check. -/
def fixedArrayEncode (enc : α → Except String (List Nat))
    (byteSize elementCount : Nat) (data : List α) : Except String (List Nat) :=
  match fixedArrayLoop enc elementCount data 0 [] with
  | Except.error e => Except.error e
  | Except.ok (lastIdx, result) =>
    match lastIdx with
    | none => Except.error "NameError: name i is not defined"
    | some i =>
      if i < elementCount then
        Except.ok (result ++ List.replicate ((elementCount - i) * byteSize) 0)
      else Except.ok result

/-- UUID built from a bytes_le buffer: the first three fields are byte-swapped
relative to the canonical big-endian byte order (python uuid.UUID bytes_le). -/
def uuid_from_bytes_le (data : List Nat) : List Nat :=
  (data.take 4).reverse ++ ((data.drop 4).take 2).reverse ++
    ((data.drop 6).take 2).reverse ++ data.drop 8

/-- Values produced by TypeDefExtEnum.decode: Python returns None, a UUID, or
a label string. -/
inductive ExtEnumValue where
  | nothing
  | uuidVal (u : List Nat)
  | labelVal (s : String)
deriving DecidableEq

/-- TypeDefExtEnum.decode (types.py): None input returns None; otherwise the
16 input bytes are read as a little-endian UUID and looked up in the elements
mapping; an unmapped UUID is returned as is rather than raising. -/
def extEnumDecode (elements : List (List Nat × String)) (data : Option (List Nat)) :
    Except String ExtEnumValue :=
  match data with
  | none => Except.ok ExtEnumValue.nothing
  | some d =>
    if d.length ≠ 16 then Except.error "ValueError: bytes_le is not a 16-char string"
    else
      let v := uuid_from_bytes_le d
      match dictGet elements v with
      | none => Except.ok (ExtEnumValue.uuidVal v)
      | some name => Except.ok (ExtEnumValue.labelVal name)

/-- Loop of decode_utf16be (mxf.py), restructured to structural recursion on
the remaining bytes: the Python loop walks even offsets i, breaking with
size = i on a trailing odd byte or a double zero byte pair; when the loop
finishes without break the initial size 0 is kept. -/
def utf16beSizeAux : List Nat → Nat → Nat
  | [], _ => 0
  | [_], i => i
  | x :: y :: rest, i =>
    if x = 0 ∧ y = 0 then i else utf16beSizeAux rest (i + 2)

/-- Byte count that decode_utf16be (mxf.py) keeps from its input buffer. -/
def decode_utf16be_size (data : List Nat) : Nat :=
  utf16beSizeAux data 0

/-- Bytes that decode_utf16be (mxf.py) actually hands to the UTF-16BE decoder:
the prefix of the declared size, data up to size. -/
def decode_utf16be_bytes (data : List Nat) : List Nat :=
  data.take (decode_utf16be_size data)

/-- ber_length (mxf.py): one byte read; values above 127 carry the count of
following big-endian length bytes in their low 7 bits.  None models a read
failure on an empty stream. -/
def ber_length (input : List Nat) : Option Nat :=
  match input with
  | [] => none
  | b :: rest =>
    if 127 < b then some (int_from_bytes (rest.take (b - 128)))
    else some b

/-- First 12-byte operational pattern label (mxf.py operation_pattern). -/
def op_prefix1 : List Nat :=
  [0x06, 0x0e, 0x2b, 0x34, 0x04, 0x01, 0x01, 0x01, 0x0d, 0x01, 0x02, 0x01]

/-- Second 12-byte operational pattern label (mxf.py operation_pattern). -/
def op_prefix2 : List Nat :=
  [0x06, 0x0e, 0x2b, 0x34, 0x04, 0x01, 0x01, 0x02, 0x0d, 0x01, 0x02, 0x01]

/-- Third 12-byte operational pattern label (mxf.py operation_pattern). -/
def op_prefix3 : List Nat :=
  [0x06, 0x0e, 0x2b, 0x34, 0x04, 0x01, 0x01, 0x03, 0x0d, 0x01, 0x02, 0x01]

/-- Dict lookup {1 a, 2 b, 3 c} used for the package complexity letter. -/
def letterFor (n : Nat) : Option String :=
  if n = 1 then some "a" else if n = 2 then some "b" else if n = 3 then some "c" else none

/-- MXFFile.operation_pattern classification of a 16-byte label (mxf.py):
check the three 12-byte label versions, then derive OP1a..OP3c from bytes 12
and 13, or OPAtom from byte 12 equal to 0x10 inside [0x10, 0x7f]. -/
def operationPatternBytes (op : List Nat) : Option String :=
  if op.take 12 = op_prefix1 ∨ op.take 12 = op_prefix2 ∨ op.take 12 = op_prefix3 then
    let complexity := op.getD 12 0
    if 1 ≤ complexity ∧ complexity ≤ 3 then
      match letterFor (op.getD 13 0) with
      | some letter => some ("OP" ++ toString complexity ++ letter)
      | none => none
    else if 0x10 ≤ complexity ∧ complexity ≤ 0x7f then
      if complexity = 0x10 then some "OPAtom" else none
    else none
  else none

/-- Classification as worded by the specification, for comparison with the
source function: prefix mismatch is unrecognized; byte 12 in {1,2,3} with
byte 13 in {1,2,3} yields the OP string; byte 12 in [0x10,0x7f] yields OPAtom
exactly when it is 0x10; every remaining combination is unrecognized. -/
def specOpClassify (op : List Nat) : Option String :=
  if op.take 12 = op_prefix1 ∨ op.take 12 = op_prefix2 ∨ op.take 12 = op_prefix3 then
    if (op.getD 12 0 = 1 ∨ op.getD 12 0 = 2 ∨ op.getD 12 0 = 3) ∧
       (op.getD 13 0 = 1 ∨ op.getD 13 0 = 2 ∨ op.getD 13 0 = 3) then
      some ("OP" ++ toString (op.getD 12 0) ++
        (if op.getD 13 0 = 1 then "a" else if op.getD 13 0 = 2 then "b" else "c"))
    else if 0x10 ≤ op.getD 12 0 ∧ op.getD 12 0 ≤ 0x7f then
      if op.getD 12 0 = 0x10 then some "OPAtom" else none
    else none
  else none

/-- MXFFile.read_primer (mxf.py): a declared entry length other than 18 or an
entry count above 65536 aborts with a bare return, which yields None instead
of a tag dictionary; otherwise item_num entries of (tag, uuid) are read. -/
def read_primer (item_num item_len : Nat) (entries : List (Nat × List Nat)) :
    Option (List (Nat × List Nat)) :=
  if item_len ≠ 18 then none
  else if 65536 < item_num then none
  else some (entries.take item_num)

/-- UUID a0240060-94eb-75cb-ce2a-ca5051ab11d3 (FrameSampleSize local tag). -/
def uuid_FrameSampleSize : List Nat :=
  [0xa0, 0x24, 0x00, 0x60, 0x94, 0xeb, 0x75, 0xcb,
   0xce, 0x2a, 0xca, 0x50, 0x51, 0xab, 0x11, 0xd3]

/-- UUID a0240060-94eb-75cb-ce2a-ca4d51ab11d3 (ResolutionID local tag). -/
def uuid_ResolutionID : List Nat :=
  [0xa0, 0x24, 0x00, 0x60, 0x94, 0xeb, 0x75, 0xcb,
   0xce, 0x2a, 0xca, 0x4d, 0x51, 0xab, 0x11, 0xd3]

/-- UUID a0220060-94eb-75cb-96c4-69924f6211d3 (AppCode local tag). -/
def uuid_AppCode : List Nat :=
  [0xa0, 0x22, 0x00, 0x60, 0x94, 0xeb, 0x75, 0xcb,
   0x96, 0xc4, 0x69, 0x92, 0x4f, 0x62, 0x11, 0xd3]

/-- MXFObject.read_properties (mxf.py): for every (tag, payload) of the unit
the local tag table is consulted with local_tags.get; when the MXFFile stored
None for local_tags (aborted primer) this raises AttributeError on the first
tag; a uid matching one of the three extension UUIDs stores the decoded
field, any other uid is skipped. -/
def read_properties (local_tags : Option (List (Nat × List Nat))) :
    List (Nat × List Nat) → Except String (List (String × Int))
  | [] => Except.ok []
  | (tag, data) :: rest =>
    match local_tags with
    | none => Except.error "AttributeError: NoneType object has no attribute get"
    | some tags =>
      let uid := dictGet tags tag
      let fields :=
        if uid = some uuid_FrameSampleSize then [("FrameSampleSize", read_s32be data)]
        else if uid = some uuid_ResolutionID then [("ResolutionID", read_s32be data)]
        else if uid = some uuid_AppCode then [("AppCode", read_s32be data)]
        else []
      match read_properties (some tags) rest with
      | Except.error e => Except.error e
      | Except.ok fs => Except.ok (fields ++ fs)

/-- Objects of the MXF graph needed by the link layer (mxf.py): references are
instance ids (Nat); each field mirrors one entry of the data dict of the
corresponding reader class, none meaning the key is absent. -/
inductive MXFObj where
  | contentStorage (packages : Option (List Nat)) (essence : Option (List Nat))
  | package (isMaterial : Bool) (mobID : Option Nat) (name : Option String)
      (slots : Option (List Nat)) (descriptor : Option Nat)
      (lastModified : Option Nat) (creationTime : Option Nat)
      (usageCode : Option Nat) (appCode : Option Int)
  | track (slotID : Option Nat) (editRate : Option (Nat × Nat))
      (slotName : Option String) (physicalTrackNumber : Option Nat)
      (segment : Option Nat) (origin : Option Int)
  | filler (dataDef : Option String) (length : Option Nat)
  | importDescriptor
deriving DecidableEq

/-- Destination components produced by MXFComponent link methods (mxf.py);
the Filler variant carries media kind and length. -/
inductive Component where
  | filler (mediaKind : String) (length : Nat)
deriving DecidableEq

/-- Destination descriptors produced by MXFDescriptor link methods (mxf.py). -/
inductive DestDescriptor where
  | importDesc
deriving DecidableEq

/-- Destination timeline slot built by MXFTrack.link (mxf.py): slot id and
edit rate are required, slot name and physical track number copied when
present, the segment always assigned from the linked component. -/
structure TimelineSlot where
  slotID : Nat
  editRate : Nat × Nat
  slotName : Option String
  physicalTrackNumber : Option Nat
  segment : Component
deriving DecidableEq

/-- Destination mob built by MXFPackage.link (mobs.py Mob plus the fields the
link pass assigns); its identity is the mob id (mobs.py unique_key). -/
structure Mob where
  isMaster : Bool
  id : Option Nat
  name : Option String
  slots : List TimelineSlot
  lastModified : Option Nat
  creationTime : Option Nat
  usageCode : Option Nat
  appCode : Option Int
  descriptor : Option DestDescriptor
deriving DecidableEq

/-- MXFFile session state used by the link pass (mxf.py): the object table
keyed by instance id, the preface fields the pass reads, and the partition
header operational pattern. -/
structure MXFModel where
  objects : List (Nat × MXFObj)
  prefaceContentStorage : Option Nat
  prefaceOperationalPattern : Option (List Nat)
  headerOperationPattern : Option (List Nat)
deriving DecidableEq

/-- MXFFile.resolve (mxf.py): plain lookup in the object table. -/
def resolveObj (file : MXFModel) (r : Nat) : Option MXFObj :=
  dictGet file.objects r

/-- MXFFile.operation_pattern source label (mxf.py): the header partition
pattern when present, the preface OperationalPattern property otherwise. -/
def MXFModel.op_label (file : MXFModel) : Option (List Nat) :=
  match file.headerOperationPattern with
  | some op => some op
  | none => file.prefaceOperationalPattern

/-- MXFFile.operation_pattern (mxf.py): classify the 16-byte label. -/
def MXFModel.operation_pattern (file : MXFModel) : Option String :=
  match file.op_label with
  | none => none
  | some op => operationPatternBytes op

/-- MXFFile.content (mxf.py): resolve the ContentStorage strong reference of
the preface. -/
def MXFModel.content (file : MXFModel) : Option MXFObj :=
  match file.prefaceContentStorage with
  | none => none
  | some r => resolveObj file r

/-- MXFFile.packages (mxf.py): the Packages strong reference array of the
resolved content storage, empty when either is missing. -/
def MXFModel.packageRefs (file : MXFModel) : List Nat :=
  match file.content with
  | some (MXFObj.contentStorage pkgs _) => pkgs.getD []
  | _ => []

/-- Link method of the concrete component classes (mxf.py MXFFiller.link):
media kind and length are read with mandatory dict access (KeyError when the
tag was absent); objects without a link method raise AttributeError. -/
def componentLink (obj : MXFObj) : Except String Component :=
  match obj with
  | MXFObj.filler dataDef length =>
    match dataDef with
    | none => Except.error "KeyError: DataDef"
    | some dd =>
      match length with
      | none => Except.error "KeyError: Length"
      | some len => Except.ok (Component.filler dd len)
  | _ => Except.error "AttributeError: object has no attribute link"

/-- MXFTrack.link (mxf.py): slot id and edit rate are mandatory, slot name and
physical track number optional; the Segment strong reference is resolved with
resolve_ref, which raises when the key is absent or the target missing, and
the linked segment component is assigned to the new timeline slot. -/
def trackLink (file : MXFModel) (obj : MXFObj) : Except String TimelineSlot :=
  match obj with
  | MXFObj.track slotID editRate slotName ptn segment _origin =>
    match slotID with
    | none => Except.error "KeyError: SlotID"
    | some sid =>
      match editRate with
      | none => Except.error "KeyError: EditRate"
      | some er =>
        match segment with
        | none => Except.error "unable to resolve: Segment"
        | some sref =>
          match resolveObj file sref with
          | none => Except.error "unable to resolve: Segment"
          | some sobj =>
            match componentLink sobj with
            | Except.error e => Except.error e
            | Except.ok comp =>
              Except.ok { slotID := sid
                          editRate := er
                          slotName := slotName
                          physicalTrackNumber := ptn
                          segment := comp }
  | _ => Except.error "AttributeError: object has no attribute link"

/-- MXFDescriptor link methods (mxf.py): the import descriptor links to an
empty destination descriptor; descriptor classes without a link method raise
AttributeError. -/
def descriptorLink (obj : MXFObj) : Except String DestDescriptor :=
  match obj with
  | MXFObj.importDescriptor => Except.ok DestDescriptor.importDesc
  | _ => Except.error "AttributeError: object has no attribute link"

/-- Slots loop of MXFPackage.link (mxf.py): iter_strong_refs yields the table
lookup of every Slots entry (None for a dangling entry, on which the link call
raises AttributeError); each linked timeline is appended to the mob slots.  On
failure the timeline slots appended so far are reported so the partially
linked mob can be reconstructed. -/
def linkSlotsAux (file : MXFModel) :
    List Nat → List TimelineSlot → Except (List TimelineSlot × String) (List TimelineSlot)
  | [], acc => Except.ok acc
  | r :: rest, acc =>
    match resolveObj file r with
    | none => Except.error (acc, "AttributeError: NoneType object has no attribute link")
    | some obj =>
      match trackLink file obj with
      | Except.error e => Except.error (acc, e)
      | Except.ok slot => linkSlotsAux file rest (acc ++ [slot])

/-- MXFPackage.link (mxf.py): a new mob is created and appended to the
destination mobs before anything else; the name is copied when truthy, each
slot is linked and appended, the four metadata keys are copied when present,
then the descriptor reference is resolved and linked when present.  The
returned list is the destination mobs collection after the call, which keeps
the partially constructed mob when an exception escapes. -/
def packageLink (file : MXFModel) (isMat : Bool) (mobID : Option Nat)
    (name : Option String) (slots : Option (List Nat)) (descr : Option Nat)
    (lm ct uc : Option Nat) (ac : Option Int) (dest : List Mob) :
    List Mob × Except String Mob :=
  let nm : Option String :=
    match name with
    | some n => if n = "" then none else some n
    | none => none
  let mob1 : Mob :=
    { isMaster := isMat
      id := mobID
      name := nm
      slots := []
      lastModified := none
      creationTime := none
      usageCode := none
      appCode := none
      descriptor := none }
  match linkSlotsAux file (slots.getD []) [] with
  | Except.error (done, e) => (dest ++ [{ mob1 with slots := done }], Except.error e)
  | Except.ok ts =>
    let mob2 : Mob :=
      { mob1 with
        slots := ts
        lastModified := lm
        creationTime := ct
        usageCode := uc
        appCode := ac }
    match descr with
    | none => (dest ++ [mob2], Except.ok mob2)
    | some dref =>
      match resolveObj file dref with
      | none => (dest ++ [mob2], Except.error "unable to resolve: Descriptor")
      | some dobj =>
        match descriptorLink dobj with
        | Except.error e => (dest ++ [mob2], Except.error e)
        | Except.ok d =>
          let mob3 : Mob := { mob2 with descriptor := some d }
          (dest ++ [mob3], Except.ok mob3)

/-- Package loop of MXFFile.link (mxf.py): every entry of the content storage
Packages array is resolved (a dangling entry raises AttributeError on the id
access); a package whose mob id is already among the destination mob ids is
skipped, every other package is linked and its mob collected.  Membership of
package.id in the destination mobs collection is keyed by mob id; the
collection itself lives outside src, its unique key is the mob id
(mobs.py unique_key). -/
def linkPackagesAux (file : MXFModel) :
    List Nat → List Mob → List Mob → List Mob × Except String (List Mob)
  | [], dest, mobs => (dest, Except.ok mobs)
  | r :: rest, dest, mobs =>
    match resolveObj file r with
    | none => (dest, Except.error "AttributeError: NoneType object has no attribute id")
    | some obj =>
      match obj with
      | MXFObj.package isMat mobID name slots descr lm ct uc ac =>
        if mobID ∈ List.map Mob.id dest then
          linkPackagesAux file rest dest mobs
        else
          match packageLink file isMat mobID name slots descr lm ct uc ac dest with
          | (dest2, Except.error e) => (dest2, Except.error e)
          | (dest2, Except.ok mob) => linkPackagesAux file rest dest2 (mobs ++ [mob])
      | _ => (dest, Except.error "AttributeError: object has no attribute id")

/-- MXFFile.link (mxf.py): refuse any operational pattern other than OPAtom
before touching the destination, then run the package loop.  The first result
component is the destination mobs collection after the call, the second the
list of newly linked mobs or the escaping exception. -/
def MXFFile_link (file : MXFModel) (dest : List Mob) :
    List Mob × Except String (List Mob) :=
  if file.operation_pattern ≠ some "OPAtom" then
    (dest, Except.error "can only link OPAtom mxf files")
  else linkPackagesAux file file.packageRefs dest []

/-- OPAtom operational pattern label: version-1 label with byte 12 = 0x10. -/
def opAtomLabel : List Nat := op_prefix1 ++ [0x10, 0x00, 0x00, 0x00]

/-- OP1a operational pattern label: version-1 label with bytes 12 and 13 = 1. -/
def op1aLabel : List Nat := op_prefix1 ++ [0x01, 0x01, 0x00, 0x00]

/-- Two good packages and one bad one: package A (instance 2) links cleanly,
package B (instance 3) has a track whose Segment reference 99 is dangling,
package C (instance 7) would link cleanly but sits after B. -/
def exFileC2 (idA idB idC : Nat) : MXFModel where
  objects :=
    [ (1, MXFObj.contentStorage (some [2, 3, 7]) none),
      (2, MXFObj.package true (some idA) none (some [4]) none none none none none),
      (3, MXFObj.package false (some idB) none (some [6]) none none none none none),
      (4, MXFObj.track (some 1) (some (25, 1)) none none (some 5) none),
      (5, MXFObj.filler (some "picture") (some 10)),
      (6, MXFObj.track (some 1) (some (25, 1)) none none (some 99) none),
      (7, MXFObj.package false (some idC) none (some []) none none none none none) ]
  prefaceContentStorage := some 1
  prefaceOperationalPattern := none
  headerOperationPattern := some opAtomLabel

/-- Timeline slot that linking track instance 4 of exFileC2 produces. -/
def c2_slotA : TimelineSlot where
  slotID := 1
  editRate := (25, 1)
  slotName := none
  physicalTrackNumber := none
  segment := Component.filler "picture" 10

/-- Fully linked mob of package A of exFileC2. -/
def c2_mobA (idA : Nat) : Mob where
  isMaster := true
  id := some idA
  name := none
  slots := [c2_slotA]
  lastModified := none
  creationTime := none
  usageCode := none
  appCode := none
  descriptor := none

/-- Partially linked mob that failing package B of exFileC2 leaves behind in
the destination mobs collection. -/
def c2_mobB (idB : Nat) : Mob where
  isMaster := false
  id := some idB
  name := none
  slots := []
  lastModified := none
  creationTime := none
  usageCode := none
  appCode := none
  descriptor := none

/-- Single-package OPAtom file whose one material package links cleanly. -/
def exFileC8 : MXFModel where
  objects :=
    [ (1, MXFObj.contentStorage (some [2]) none),
      (2, MXFObj.package true (some 7) (some "AA") (some [4]) none none none none none),
      (4, MXFObj.track (some 1) (some (25, 1)) none none (some 5) none),
      (5, MXFObj.filler (some "picture") (some 10)) ]
  prefaceContentStorage := some 1
  prefaceOperationalPattern := none
  headerOperationPattern := some opAtomLabel

/-- Mob that linking exFileC8 produces. -/
def c8_mob : Mob where
  isMaster := true
  id := some 7
  name := some "AA"
  slots := [c2_slotA]
  lastModified := none
  creationTime := none
  usageCode := none
  appCode := none
  descriptor := none

/-- File whose partition header declares the OP1a operational pattern. -/
def exFileC5 : MXFModel where
  objects := []
  prefaceContentStorage := none
  prefaceOperationalPattern := none
  headerOperationPattern := some op1aLabel

/-- Boolean enum typedef carrying a decoy element mapping. -/
def c6_boolean_td : TypeDefEnumModel where
  auid := booleanAuid
  elementSize := 1
  elementSigned := false
  elements := [(1, "Maybe"), (0, "Other")]

/-- Non-boolean enum typedef over u8 codes mapping only code 0. -/
def c6_other_td : TypeDefEnumModel where
  auid := List.replicate 16 0
  elementSize := 1
  elementSigned := false
  elements := [(0, "Zero")]

/-- The resolved package shape required for a loop entry to be skipped or
linked: the table resolves the reference to a package object with this mob
id. -/
def isPackageWithId (file : MXFModel) (r : Nat) (mid : Option Nat) : Prop :=
  ∃ isMat name slots descr lm ct uc ac,
    resolveObj file r = some (MXFObj.package isMat mid name slots descr lm ct uc ac)

/-- The classification of bytes 12 and 13 agrees between the source shape and
the shape the specification words describe, once the label is recognized. -/
theorem opInnerEq (c d : Nat) :
    (if 1 ≤ c ∧ c ≤ 3 then
      match letterFor d with
      | some letter => some ("OP" ++ toString c ++ letter)
      | none => none
    else if 0x10 ≤ c ∧ c ≤ 0x7f then
      if c = 0x10 then some "OPAtom" else none
    else none) =
    (if (c = 1 ∨ c = 2 ∨ c = 3) ∧ (d = 1 ∨ d = 2 ∨ d = 3) then
      some ("OP" ++ toString c ++
        (if d = 1 then "a" else if d = 2 then "b" else "c"))
    else if 0x10 ≤ c ∧ c ≤ 0x7f then
      if c = 0x10 then some "OPAtom" else none
    else none) := by
  by_cases h1 : 1 ≤ c ∧ c ≤ 3
  · rw [if_pos h1]
    have hc : c = 1 ∨ c = 2 ∨ c = 3 := by omega
    by_cases hd : d = 1 ∨ d = 2 ∨ d = 3
    · rw [if_pos ⟨hc, hd⟩]
      rcases hd with rfl | rfl | rfl <;> simp [letterFor]
    · push_neg at hd
      obtain ⟨hd1, hd2, hd3⟩ := hd
      rw [if_neg (by tauto)]
      rw [if_neg (by omega)]
      simp [letterFor, hd1, hd2, hd3]
  · rw [if_neg h1]
    have hno : ¬((c = 1 ∨ c = 2 ∨ c = 3) ∧ (d = 1 ∨ d = 2 ∨ d = 3)) := by
      rintro ⟨hc, -⟩; omega
    rw [if_neg hno]

/-- Even offsets of a buffer with no double zero pair and even length drive
the decode_utf16be loop to its fall-through, which keeps size 0. -/
theorem utf16_aux_no_pair :
    ∀ (n : Nat) (data : List Nat), data.length ≤ n →
      data.length % 2 = 0 →
      (∀ j, j + 1 < data.length → j % 2 = 0 →
        ¬(data.getD j 0 = 0 ∧ data.getD (j + 1) 0 = 0)) →
      ∀ i, utf16beSizeAux data i = 0 := by
  intro n
  induction n with
  | zero =>
    intro data hlen _ _ i
    match data with
    | [] => rfl
    | _ :: _ => simp at hlen
  | succ n ih =>
    intro data hlen heven hnop i
    match data with
    | [] => rfl
    | [x] => simp at heven
    | x :: y :: rest =>
      have hxy : ¬(x = 0 ∧ y = 0) := by
        have := hnop 0 (by simp) (by norm_num)
        simpa using this
      simp only [utf16beSizeAux]
      rw [if_neg hxy]
      apply ih rest (by simp at hlen; omega) (by simp at heven ⊢; omega)
      intro j hj hj2
      have h := hnop (j + 2) (by simp at hj ⊢; omega) (by omega)
      have e1 : (x :: y :: rest).getD (j + 2) 0 = rest.getD j 0 := rfl
      have e2 : (x :: y :: rest).getD (j + 2 + 1) 0 = rest.getD (j + 1) 0 := rfl
      rw [e1, e2] at h
      exact h

/-- A first double zero pair at even offset p makes the decode_utf16be loop
break with size i + p. -/
theorem utf16_aux_pair :
    ∀ (n : Nat) (data : List Nat), data.length ≤ n →
      ∀ p, p % 2 = 0 → p + 1 < data.length →
      data.getD p 0 = 0 → data.getD (p + 1) 0 = 0 →
      (∀ j, j < p → j % 2 = 0 →
        ¬(data.getD j 0 = 0 ∧ data.getD (j + 1) 0 = 0)) →
      ∀ i, utf16beSizeAux data i = i + p := by
  intro n
  induction n with
  | zero =>
    intro data hlen p _ hp _ _ _ i
    match data with
    | [] => simp at hp
    | _ :: _ => simp at hlen
  | succ n ih =>
    intro data hlen p hpe hp hz1 hz2 hmin i
    match data with
    | [] => simp at hp
    | [x] => simp at hp
    | x :: y :: rest =>
      by_cases hp0 : p = 0
      · subst hp0
        have hx : x = 0 := hz1
        have hy : y = 0 := hz2
        simp only [utf16beSizeAux]
        rw [if_pos ⟨hx, hy⟩]
        omega
      · have hxy : ¬(x = 0 ∧ y = 0) := by
          have := hmin 0 (by omega) (by norm_num)
          simpa using this
        simp only [utf16beSizeAux]
        rw [if_neg hxy]
        have hrec := ih rest (by simp at hlen; omega) (p - 2) (by omega)
          (by simp at hp ⊢; omega)
          (by
            have e1 : rest.getD (p - 2) 0 = (x :: y :: rest).getD p 0 := by
              have : p = (p - 2) + 2 := by omega
              rw [this]; rfl
            rw [e1]; exact hz1)
          (by
            have e2 : rest.getD (p - 2 + 1) 0 = (x :: y :: rest).getD (p + 1) 0 := by
              have : p + 1 = (p - 2 + 1) + 2 := by omega
              rw [this]; rfl
            rw [e2]; exact hz2)
          (by
            intro j hj hj2
            have h := hmin (j + 2) (by omega) (by omega)
            have e1 : (x :: y :: rest).getD (j + 2) 0 = rest.getD j 0 := rfl
            have e2 : (x :: y :: rest).getD (j + 2 + 1) 0 = rest.getD (j + 1) 0 := rfl
            rw [e1, e2] at h
            exact h)
          (i + 2)
        rw [hrec]
        omega

/-- An odd-length buffer without a double zero pair at an even offset makes
the decode_utf16be loop break at the trailing byte, with size i + length - 1. -/
theorem utf16_aux_odd :
    ∀ (n : Nat) (data : List Nat), data.length ≤ n →
      data.length % 2 = 1 →
      (∀ j, j + 1 < data.length → j % 2 = 0 →
        ¬(data.getD j 0 = 0 ∧ data.getD (j + 1) 0 = 0)) →
      ∀ i, utf16beSizeAux data i = i + (data.length - 1) := by
  intro n
  induction n with
  | zero =>
    intro data hlen hodd _ i
    match data with
    | [] => simp at hodd
    | _ :: _ => simp at hlen
  | succ n ih =>
    intro data hlen hodd hnop i
    match data with
    | [] => simp at hodd
    | [x] => simp [utf16beSizeAux]
    | x :: y :: rest =>
      have hxy : ¬(x = 0 ∧ y = 0) := by
        have := hnop 0 (by simp) (by norm_num)
        simpa using this
      simp only [utf16beSizeAux]
      rw [if_neg hxy]
      have hrec := ih rest (by simp at hlen; omega) (by simp at hodd ⊢; omega)
        (by
          intro j hj hj2
          have h := hnop (j + 2) (by simp at hj ⊢; omega) (by omega)
          have e1 : (x :: y :: rest).getD (j + 2) 0 = rest.getD j 0 := rfl
          have e2 : (x :: y :: rest).getD (j + 2 + 1) 0 = rest.getD (j + 1) 0 := rfl
          rw [e1, e2] at h
          exact h)
        (i + 2)
      rw [hrec]
      have hrl : rest.length % 2 = 1 := by
        simp only [List.length_cons] at hodd
        omega
      simp only [List.length_cons]
      omega

/-- MXFPackage.link always appends exactly one mob to the destination mobs
collection, and that mob carries the package mob id, whether the call
succeeds or raises. -/
theorem packageLink_fst (file : MXFModel) (isMat : Bool) (mobID : Option Nat)
    (name : Option String) (slots : Option (List Nat)) (descr : Option Nat)
    (lm ct uc : Option Nat) (ac : Option Int) (dest : List Mob) :
    ∃ m, (packageLink file isMat mobID name slots descr lm ct uc ac dest).1 =
      dest ++ [m] ∧ m.id = mobID := by
  simp only [packageLink]
  split
  · exact ⟨_, rfl, rfl⟩
  · split
    · exact ⟨_, rfl, rfl⟩
    · split
      · exact ⟨_, rfl, rfl⟩
      · split
        · exact ⟨_, rfl, rfl⟩
        · exact ⟨_, rfl, rfl⟩

/-- A successful package loop run leaves every earlier destination mob id in
place and guarantees that every processed reference resolves to a package
whose mob id is afterwards among the destination mob ids. -/
theorem linkPackages_ids (file : MXFModel) :
    ∀ (refs : List Nat) (dest mobs dest2 mobs2 : List Mob),
      linkPackagesAux file refs dest mobs = (dest2, Except.ok mobs2) →
      (∀ x, x ∈ List.map Mob.id dest → x ∈ List.map Mob.id dest2) ∧
      (∀ r ∈ refs, ∃ mid, isPackageWithId file r mid ∧
        mid ∈ List.map Mob.id dest2) := by
  intro refs
  induction refs with
  | nil =>
    intro dest mobs dest2 mobs2 h
    simp only [linkPackagesAux] at h
    obtain ⟨h1, h2⟩ := Prod.mk.injEq .. |>.mp h
    subst h1
    exact ⟨fun x hx => hx, by simp⟩
  | cons r rest ih =>
    intro dest mobs dest2 mobs2 h
    simp only [linkPackagesAux] at h
    cases hres : resolveObj file r with
    | none =>
      rw [hres] at h
      simp only [] at h
      obtain ⟨-, h2⟩ := Prod.mk.injEq .. |>.mp h
      exact absurd h2 (by simp)
    | some obj =>
      rw [hres] at h
      cases obj with
      | package isMat mobID name slots descr lm ct uc ac =>
        simp only [] at h
        by_cases hmem : mobID ∈ List.map Mob.id dest
        · rw [if_pos hmem] at h
          obtain ⟨mono, hrest⟩ := ih dest mobs dest2 mobs2 h
          refine ⟨mono, ?_⟩
          intro r2 hr2
          rcases List.mem_cons.mp hr2 with heq | hr2
          · subst heq
            exact ⟨mobID, ⟨isMat, name, slots, descr, lm, ct, uc, ac, hres⟩,
              mono _ hmem⟩
          · exact hrest r2 hr2
        · rw [if_neg hmem] at h
          obtain ⟨m, hm1, hm2⟩ :=
            packageLink_fst file isMat mobID name slots descr lm ct uc ac dest
          cases hpl : packageLink file isMat mobID name slots descr lm ct uc ac dest with
          | mk destP res =>
            rw [hpl] at h hm1
            simp only [] at hm1
            cases res with
            | error e =>
              simp only [] at h
              obtain ⟨-, h2⟩ := Prod.mk.injEq .. |>.mp h
              exact absurd h2 (by simp)
            | ok mob =>
              simp only [] at h
              obtain ⟨mono, hrest⟩ := ih destP (mobs ++ [mob]) dest2 mobs2 h
              refine ⟨?_, ?_⟩
              · intro x hx
                apply mono
                rw [hm1]
                simp only [List.map_append, List.mem_append]
                exact Or.inl hx
              · intro r2 hr2
                rcases List.mem_cons.mp hr2 with heq | hr2
                · subst heq
                  refine ⟨mobID, ⟨isMat, name, slots, descr, lm, ct, uc, ac, hres⟩, ?_⟩
                  apply mono
                  rw [hm1]
                  simp [hm2]
                · exact hrest r2 hr2
      | contentStorage p e =>
        simp only [] at h
        obtain ⟨-, h2⟩ := Prod.mk.injEq .. |>.mp h
        exact absurd h2 (by simp)
      | track a b c d e f =>
        simp only [] at h
        obtain ⟨-, h2⟩ := Prod.mk.injEq .. |>.mp h
        exact absurd h2 (by simp)
      | filler a b =>
        simp only [] at h
        obtain ⟨-, h2⟩ := Prod.mk.injEq .. |>.mp h
        exact absurd h2 (by simp)
      | importDescriptor =>
        simp only [] at h
        obtain ⟨-, h2⟩ := Prod.mk.injEq .. |>.mp h
        exact absurd h2 (by simp)

/-- When every reference of the loop resolves to a package whose mob id is
already among the destination mob ids, the loop skips them all and changes
nothing. -/
theorem linkPackages_skip (file : MXFModel) :
    ∀ (refs : List Nat) (dest mobs : List Mob),
      (∀ r ∈ refs, ∃ mid, isPackageWithId file r mid ∧
        mid ∈ List.map Mob.id dest) →
      linkPackagesAux file refs dest mobs = (dest, Except.ok mobs) := by
  intro refs
  induction refs with
  | nil => intro dest mobs _; rfl
  | cons r rest ih =>
    intro dest mobs hall
    obtain ⟨mid, ⟨isMat, name, slots, descr, lm, ct, uc, ac, hres⟩, hmem⟩ :=
      hall r (List.mem_cons_self r rest)
    simp only [linkPackagesAux]
    rw [hres]
    simp only []
    rw [if_pos hmem]
    exact ih dest mobs (fun r2 hr2 => hall r2 (List.mem_cons_of_mem r hr2))

/-- C1: the claim says FixedArray encode of n elements with n at most the
capacity yields exactly capacity times element-byte-size bytes with zero
padding.  The source loop pads with (capacity - i) elements where i is the
last enumerate index, one element too many: one u8 element with capacity 2
yields 3 bytes instead of 2, a full array of 2 elements yields 3 bytes, and
an empty sequence raises NameError; only the over-capacity rejection holds. -/
theorem c1_fixed_array_encode_bug :
    fixedArrayEncode (intEncode 1 false) 1 2 [(5 : Int)] = Except.ok [5, 0, 0] ∧
    fixedArrayEncode (intEncode 1 false) 1 2 [(5 : Int), (7 : Int)] = Except.ok [5, 7, 0] ∧
    fixedArrayEncode (intEncode 1 false) 1 2 ([] : List Int) =
      Except.error "NameError: name i is not defined" ∧
    fixedArrayEncode (intEncode 1 false) 1 2 [(5 : Int), (7 : Int), (9 : Int)] =
      Except.error "AAFPropertyError: too many elements for fixed array" :=
  ⟨rfl, rfl, rfl, rfl⟩

/-- C3: the claim says an aborted primer leaves the file with an empty primer
and parsing continues.  The source read_primer returns None on a stride other
than 18 or a count above 65536, local_tags becomes None, and reading the
properties of the next recognized object raises AttributeError on
local_tags.get, aborting the whole parse; with an empty dict instead parsing
would continue as claimed. -/
theorem c3_primer_failure_not_graceful :
    read_primer 2 17 [(0x3c0a, uuid_AppCode)] = none ∧
    read_primer 65537 18 [] = none ∧
    read_properties (read_primer 2 17 [(0x3c0a, uuid_AppCode)]) [(0x3c0a, [0, 0, 0, 1])] =
      Except.error "AttributeError: NoneType object has no attribute get" ∧
    read_properties (some []) [(0x3c0a, [0, 0, 0, 1])] = Except.ok [] :=
  ⟨rfl, rfl, rfl, rfl⟩

/-- C4: for every 16-byte operational pattern label, the source classification
agrees with the claimed one: unrecognized unless bytes 0 to 11 match one of
the three label versions, then OP1a..OP3c from bytes 12 and 13 in 1..3, then
OPAtom exactly for byte 12 = 0x10 within [0x10, 0x7f], and unrecognized for
every remaining combination. -/
theorem c4_operation_pattern (b0 b1 b2 b3 b4 b5 b6 b7 b8 b9 b10 b11 b12 b13 b14 b15 : Nat) :
    operationPatternBytes
      [b0, b1, b2, b3, b4, b5, b6, b7, b8, b9, b10, b11, b12, b13, b14, b15] =
    specOpClassify
      [b0, b1, b2, b3, b4, b5, b6, b7, b8, b9, b10, b11, b12, b13, b14, b15] := by
  simp only [operationPatternBytes, specOpClassify]
  by_cases hpre :
      List.take 12 [b0, b1, b2, b3, b4, b5, b6, b7, b8, b9, b10, b11, b12, b13, b14, b15] =
        op_prefix1 ∨
      List.take 12 [b0, b1, b2, b3, b4, b5, b6, b7, b8, b9, b10, b11, b12, b13, b14, b15] =
        op_prefix2 ∨
      List.take 12 [b0, b1, b2, b3, b4, b5, b6, b7, b8, b9, b10, b11, b12, b13, b14, b15] =
        op_prefix3
  · rw [if_pos hpre, if_pos hpre]
    exact opInnerEq _ _
  · rw [if_neg hpre, if_neg hpre]

/-- C5: linking a file whose operational pattern is anything but OPAtom fails
with the unsupported pattern error before any mob is created, leaving the
destination mobs collection unchanged. -/
theorem c5_link_requires_opatom (file : MXFModel) (dest : List Mob)
    (h : file.operation_pattern ≠ some "OPAtom") :
    MXFFile_link file dest = (dest, Except.error "can only link OPAtom mxf files") := by
  unfold MXFFile_link
  rw [if_pos h]

/-- C5 witness: a file with an OP1a partition header label. -/
theorem c5_witness :
    MXFFile_link exFileC5 [] = ([], Except.error "can only link OPAtom mxf files") :=
  c5_link_requires_opatom exFileC5 [] (by decide)

/-- C6: enum decode of an unmapped integer code fails (Python KeyError, the
TypeMismatch family of the specification), and the boolean special cased enum
maps byte 0x01 to true and byte 0x00 to false before consulting any element
mapping. -/
theorem c6_enum_decode :
    (∀ (td : TypeDefEnumModel) (data : List Nat) (idx : Int),
      td.auid ≠ booleanAuid →
      intDecode td.elementSize td.elementSigned data = Except.ok idx →
      dictGet td.elements idx = none →
      enumDecode td data = Except.error "KeyError") ∧
    (∀ td : TypeDefEnumModel, td.auid = booleanAuid →
      enumDecode td [1] = Except.ok (AAFValue.bool true) ∧
      enumDecode td [0] = Except.ok (AAFValue.bool false)) := by
  constructor
  · intro td data idx hne hdec hmap
    unfold enumDecode
    rw [if_neg hne, hdec]
    simp only []
    rw [hmap]
  · intro td heq
    constructor
    · unfold enumDecode
      rw [if_pos heq]
      rfl
    · unfold enumDecode
      rw [if_pos heq]
      rfl

/-- C6 witness: code 2 is unmapped in the non-boolean enum; the boolean enum
decodes 0x01 and 0x00 against a decoy mapping. -/
theorem c6_witness :
    enumDecode c6_other_td [2] = Except.error "KeyError" ∧
    enumDecode c6_boolean_td [1] = Except.ok (AAFValue.bool true) ∧
    enumDecode c6_boolean_td [0] = Except.ok (AAFValue.bool false) :=
  ⟨c6_enum_decode.1 c6_other_td [2] 2 (by decide) rfl rfl,
   (c6_enum_decode.2 c6_boolean_td rfl).1,
   (c6_enum_decode.2 c6_boolean_td rfl).2⟩

/-- C7: BER length decoding takes one byte as the length when below 128, and
otherwise its low 7 bits count following bytes read as a big-endian integer;
in particular 0x05 gives 5 and 0x82 0x01 0x00 gives 256. -/
theorem c7_ber_length :
    ber_length [0x05] = some 5 ∧
    ber_length [0x82, 0x01, 0x00] = some 256 ∧
    (∀ (b : Nat) (rest : List Nat), b < 128 → ber_length (b :: rest) = some b) ∧
    (∀ (b : Nat) (rest : List Nat), 128 ≤ b → b < 256 →
      ber_length (b :: rest) = some (int_from_bytes (rest.take (b % 128)))) := by
  refine ⟨rfl, rfl, ?_, ?_⟩
  · intro b rest hb
    simp only [ber_length]
    rw [if_neg (by omega)]
  · intro b rest hb1 hb2
    simp only [ber_length]
    rw [if_pos (by omega)]
    have hsub : b - 128 = b % 128 := by omega
    rw [hsub]

/-- C7 witness: a short form length and a one-byte long form length. -/
theorem c7_witness :
    ber_length [5, 9, 9] = some 5 ∧
    ber_length [0x81, 0x07] = some (int_from_bytes ([0x07].take (0x81 % 128))) :=
  ⟨c7_ber_length.2.2.1 5 [9, 9] (by decide),
   c7_ber_length.2.2.2 0x81 [0x07] (by decide) (by decide)⟩

/-- C2: counterexample to the claim that a dangling Segment is fatal only for
its own package subtree.  In exFileC2 package B (mob id 20) has a dangling
Segment: the whole link call raises, the failing package B has already
contributed a partial mob (id 20) to the destination mobs, and the sibling
package C (mob id 30) after it is never linked. -/
theorem c2_counterexample :
    MXFFile_link (exFileC2 10 20 30) [] =
      ([c2_mobA 10, c2_mobB 20], Except.error "unable to resolve: Segment") ∧
    some 20 ∈ List.map Mob.id (MXFFile_link (exFileC2 10 20 30) []).1 ∧
    some 30 ∉ List.map Mob.id (MXFFile_link (exFileC2 10 20 30) []).1 :=
  ⟨rfl, by decide, by decide⟩

/-- C2 amended: when a package of the loop fails to link (for example on a
dangling Segment), the exception aborts the entire loop immediately, sibling
packages after it are never processed, the destination mobs collection keeps
everything linked so far, and the failing package leaves behind a partially
linked mob bearing its mob id. -/
theorem c2_link_failure_aborts_call (file : MXFModel) (r : Nat) (rest : List Nat)
    (dest mobs : List Mob) (isMat : Bool) (mobID : Option Nat) (name : Option String)
    (slots : Option (List Nat)) (descr : Option Nat) (lm ct uc : Option Nat)
    (ac : Option Int) (e : String) (dest2 : List Mob)
    (hres : resolveObj file r =
      some (MXFObj.package isMat mobID name slots descr lm ct uc ac))
    (hmem : mobID ∉ List.map Mob.id dest)
    (hfail : packageLink file isMat mobID name slots descr lm ct uc ac dest =
      (dest2, Except.error e)) :
    linkPackagesAux file (r :: rest) dest mobs = (dest2, Except.error e) ∧
    ∃ m, dest2 = dest ++ [m] ∧ m.id = mobID := by
  constructor
  · simp only [linkPackagesAux]
    rw [hres]
    simp only []
    rw [if_neg hmem]
    rw [hfail]
  · obtain ⟨m, hm1, hm2⟩ :=
      packageLink_fst file isMat mobID name slots descr lm ct uc ac dest
    rw [hfail] at hm1
    exact ⟨m, hm1, hm2⟩

/-- C2 amended witness: package B of exFileC2 fails after package A was
linked; the loop result keeps the A mob and the partial B mob and never
reaches package C (reference 7). -/
theorem c2_link_failure_witness :
    linkPackagesAux (exFileC2 10 20 30) [3, 7] [c2_mobA 10] [c2_mobA 10] =
      ([c2_mobA 10, c2_mobB 20], Except.error "unable to resolve: Segment") :=
  (c2_link_failure_aborts_call (exFileC2 10 20 30) 3 [7] [c2_mobA 10] [c2_mobA 10]
    false (some 20) none (some [6]) none none none none none
    "unable to resolve: Segment" [c2_mobA 10, c2_mobB 20]
    rfl (by decide) rfl).1

/-- C8: relinking the same file into the same destination is idempotent keyed
by mob id: whenever a link call succeeds, every package mob id of the file is
afterwards among the destination mob ids, so a second call skips every
package, adds no mobs and leaves the destination unchanged. -/
theorem c8_link_idempotent (file : MXFModel) (dest dest2 mobs : List Mob)
    (h : MXFFile_link file dest = (dest2, Except.ok mobs)) :
    MXFFile_link file dest2 = (dest2, Except.ok []) := by
  unfold MXFFile_link at h ⊢
  by_cases hop : file.operation_pattern ≠ some "OPAtom"
  · rw [if_pos hop] at h
    obtain ⟨-, h2⟩ := Prod.mk.injEq .. |>.mp h
    exact absurd h2 (by simp)
  · rw [if_neg hop] at h
    rw [if_neg hop]
    obtain ⟨-, hall⟩ := linkPackages_ids file file.packageRefs dest [] dest2 mobs h
    exact linkPackages_skip file file.packageRefs dest2 [] hall

/-- C8 witness: linking exFileC8 once adds its single mob; linking again into
the resulting destination adds nothing. -/
theorem c8_witness :
    MXFFile_link exFileC8 [c8_mob] = ([c8_mob], Except.ok []) :=
  c8_link_idempotent exFileC8 [] [c8_mob] [c8_mob] rfl

/-- C9: extensible enum decode never fails on an unmapped 16-byte value; the
little-endian UUID itself is returned, and decoding None returns None. -/
theorem c9_ext_enum_decode (elements : List (List Nat × String)) (d : List Nat)
    (hlen : d.length = 16)
    (hun : dictGet elements (uuid_from_bytes_le d) = none) :
    extEnumDecode elements (some d) =
      Except.ok (ExtEnumValue.uuidVal (uuid_from_bytes_le d)) ∧
    extEnumDecode elements none = Except.ok ExtEnumValue.nothing := by
  constructor
  · show (if d.length ≠ 16 then
        Except.error "ValueError: bytes_le is not a 16-char string"
      else
        let v := uuid_from_bytes_le d
        match dictGet elements v with
        | none => Except.ok (ExtEnumValue.uuidVal v)
        | some name => Except.ok (ExtEnumValue.labelVal name)) =
      Except.ok (ExtEnumValue.uuidVal (uuid_from_bytes_le d))
    rw [if_neg (show ¬(d.length ≠ 16) by omega)]
    show (match dictGet elements (uuid_from_bytes_le d) with
      | none => Except.ok (ExtEnumValue.uuidVal (uuid_from_bytes_le d))
      | some name => Except.ok (ExtEnumValue.labelVal name)) =
      Except.ok (ExtEnumValue.uuidVal (uuid_from_bytes_le d))
    rw [hun]
  · rfl

/-- C9 witness: an all-zero buffer whose UUID is absent from a one-entry
mapping decodes to the UUID itself; None decodes to None. -/
theorem c9_witness :
    extEnumDecode [(uuid_from_bytes_le (List.replicate 16 3), "Label")]
      (some (List.replicate 16 0)) =
      Except.ok (ExtEnumValue.uuidVal (uuid_from_bytes_le (List.replicate 16 0))) ∧
    extEnumDecode [(uuid_from_bytes_le (List.replicate 16 3), "Label")] none =
      Except.ok ExtEnumValue.nothing :=
  c9_ext_enum_decode _ _ (by decide) (by decide)

/-- C10: decode_utf16be keeps nothing of an even-length buffer that has no
double zero byte pair at an even offset, decoding the empty string; in
general only the prefix strictly before the first double zero pair at an even
offset, or before a trailing odd byte, is ever decoded. -/
theorem c10_decode_utf16be :
    (∀ data : List Nat, data.length % 2 = 0 →
      (∀ j, j < data.length → j % 2 = 0 → j + 1 < data.length →
        ¬(data.getD j 0 = 0 ∧ data.getD (j + 1) 0 = 0)) →
      decode_utf16be_bytes data = []) ∧
    (∀ (data : List Nat) (p : Nat), p % 2 = 0 → p + 1 < data.length →
      data.getD p 0 = 0 → data.getD (p + 1) 0 = 0 →
      (∀ j, j < p → j % 2 = 0 → ¬(data.getD j 0 = 0 ∧ data.getD (j + 1) 0 = 0)) →
      decode_utf16be_bytes data = data.take p) ∧
    (∀ data : List Nat, data.length % 2 = 1 →
      (∀ j, j < data.length → j % 2 = 0 → j + 1 < data.length →
        ¬(data.getD j 0 = 0 ∧ data.getD (j + 1) 0 = 0)) →
      decode_utf16be_bytes data = data.take (data.length - 1)) := by
  refine ⟨?_, ?_, ?_⟩
  · intro data he hno
    unfold decode_utf16be_bytes decode_utf16be_size
    rw [utf16_aux_no_pair data.length data le_rfl he
      (fun j hj1 hj2 => hno j (by omega) hj2 hj1) 0]
    simp
  · intro data p hpe hp hz1 hz2 hmin
    unfold decode_utf16be_bytes decode_utf16be_size
    rw [utf16_aux_pair data.length data le_rfl p hpe hp hz1 hz2 hmin 0]
    rw [Nat.zero_add]
  · intro data hodd hno
    unfold decode_utf16be_bytes decode_utf16be_size
    rw [utf16_aux_odd data.length data le_rfl hodd
      (fun j hj1 hj2 => hno j (by omega) hj2 hj1) 0]
    rw [Nat.zero_add]

/-- C10 witness: the UTF-16BE bytes of AB are discarded entirely; a double
zero pair keeps only the bytes before it; an odd trailing byte is dropped. -/
theorem c10_witness :
    decode_utf16be_bytes [0, 65, 0, 66] = [] ∧
    decode_utf16be_bytes [0, 65, 0, 0, 0, 66] = List.take 2 [0, 65, 0, 0, 0, 66] ∧
    decode_utf16be_bytes [0, 65, 7] = List.take 2 [0, 65, 7] :=
  ⟨c10_decode_utf16be.1 [0, 65, 0, 66] (by decide) (by decide),
   c10_decode_utf16be.2.1 [0, 65, 0, 0, 0, 66] 2 (by decide) (by decide)
     (by decide) (by decide) (by decide),
   c10_decode_utf16be.2.2 [0, 65, 7] (by decide) (by decide)⟩
